import Mathlib

/-!
Verification development for the Hyperliquid trading bot's strategy
evaluation and risk-gated execution pipeline.

Shallow embedding conventions:
* Rust `rust_decimal::Decimal` and `f64` values are modelled as rationals
  (`ℚ`); the claims here only compare, add, subtract, multiply and divide
  such values in ranges where `Decimal`/`f64` arithmetic agrees with exact
  rational arithmetic, and no claim depends on rounding or overflow.
* `chrono` UTC calendar dates are modelled as integers (`ℤ`, a day ordinal,
  ordered as dates are); functions that read the wall clock in Rust take the
  observed date as an explicit argument.
* `HashMap` fields are modelled as association lists; iteration in the Rust
  sources only performs key-disjoint per-entry actions (or first-error
  detection), so list order is a faithful stand-in for map order.
* Fallible Rust functions returning `Result` are modelled with `Except`
  (always-`Ok` paths simply produce `Except.ok`).
* Diagnostic-only data (the free-form `metadata` map of `StrategySignal`,
  log lines, order ids) is not consumed by any code under verification and
  is omitted from the embedded records.
-/

namespace HyperliquidBot

/-- `models::SignalAction`. -/
inductive SignalAction where
  | Buy
  | Sell
  | Hold
  | Close
deriving DecidableEq, Repr

/-- `models::PositionSide`. -/
inductive PositionSide where
  | Long
  | Short
deriving DecidableEq, Repr

/-- `models::MarketData`: one immutable quote snapshot (timestamp omitted;
no embedded function reads it). -/
structure MarketData where
  symbol : String
  price : ℚ
  volume_24h : ℚ
  change_24h : ℚ
  high_24h : ℚ
  low_24h : ℚ
deriving DecidableEq, Repr

/-- `models::StrategySignal` (the trade proposal), without the
diagnostic-only `metadata` map. -/
structure StrategySignal where
  strategy_name : String
  symbol : String
  action : SignalAction
  quantity : ℚ
  price : Option ℚ
  confidence : ℚ
deriving DecidableEq, Repr

/-- `models::Position` (timestamp omitted). -/
structure Position where
  symbol : String
  side : PositionSide
  size : ℚ
  entry_price : ℚ
  current_price : ℚ
  unrealized_pnl : ℚ
  realized_pnl : ℚ
  margin : ℚ
deriving DecidableEq, Repr

/-- `models::AccountInfo` (open orders omitted; nothing embedded reads
them). -/
structure AccountInfo where
  balance : ℚ
  available_balance : ℚ
  total_pnl : ℚ
  total_margin : ℚ
  positions : List Position
deriving DecidableEq, Repr

/-- `config::RiskManagementConfig`. -/
structure RiskManagementConfig where
  max_daily_loss : ℚ
  max_position_size : ℚ
  stop_loss_percentage : ℚ
  take_profit_percentage : ℚ
  max_drawdown_percentage : ℚ
deriving DecidableEq, Repr

/-- `trading_bot::TradeStats`; `last_reset_date` is a UTC day ordinal. -/
structure TradeStats where
  total_trades : ℕ
  successful_trades : ℕ
  failed_trades : ℕ
  total_pnl : ℚ
  daily_pnl : ℚ
  last_reset_date : ℤ
deriving DecidableEq, Repr

/-- A `serde_json::Value` as the strategies consume it.  `jnat n` is a JSON
number stored as an unsigned integer (`as_u64` succeeds on it), `jnum q` any
other JSON number (only `as_f64` succeeds), `jstr` a string, and the
remaining JSON shapes are collapsed into `jother` since every embedded
accessor returns `none` on them. -/
inductive JsonValue where
  | jstr (s : String)
  | jnat (n : ℕ)
  | jnum (q : ℚ)
  | jbool (b : Bool)
  | jother
deriving DecidableEq, Repr

/-- `serde_json::Value::as_str`. -/
def jsonAsStr : JsonValue → Option String
  | .jstr s => some s
  | _ => none

/-- `serde_json::Value::as_u64`. -/
def jsonAsU64 : JsonValue → Option ℕ
  | .jnat n => some n
  | _ => none

/-- `serde_json::Value::as_f64` (numbers only, exact in `ℚ`). -/
def jsonAsF64 : JsonValue → Option ℚ
  | .jnat n => some n
  | .jnum q => some q
  | _ => none

/-- Value of a list of decimal digit characters, most significant first
(`none` if a non-digit appears). -/
def parseDecDigits (cs : List Char) : Option ℕ :=
  cs.foldl
    (fun acc c =>
      match acc with
      | none => none
      | some n => if c.isDigit then some (n * 10 + (c.toNat - 48)) else none)
    (some 0)

/-- `rust_decimal::Decimal::from_str` on the plain decimal forms the bot's
configuration uses: optional sign, integer digits, optional fractional
digits (scientific notation and the 96-bit mantissa limit are outside the
model; no claim exercises them). -/
def parseDecimal (s : String) : Option ℚ :=
  let cs := s.data
  let signed : Bool × List Char :=
    match cs with
    | '-' :: t => (true, t)
    | '+' :: t => (false, t)
    | _ => (false, cs)
  let neg := signed.1
  let body := signed.2
  let intPart := body.takeWhile (fun c => decide (c ≠ '.'))
  let rest := body.dropWhile (fun c => decide (c ≠ '.'))
  match rest with
  | [] =>
    if intPart.isEmpty then none
    else (parseDecDigits intPart).map (fun n => if neg then -(n : ℚ) else (n : ℚ))
  | _ :: frac =>
    if frac.contains '.' then none
    else if intPart.isEmpty && frac.isEmpty then none
    else
      match parseDecDigits intPart, parseDecDigits frac with
      | some i, some f =>
        let v : ℚ := (i : ℚ) + (f : ℚ) / (10 ^ frac.length : ℚ)
        some (if neg then -v else v)
      | _, _ => none

/-! ## Indicator library (`strategies::base`) -/

/-- `base::calculate_sma`: mean of the last `period` prices.  (Rust panics
on `period = 0`; in `ℚ` the division yields `0` there — no claim uses a
zero period.) -/
def calculate_sma (prices : List ℚ) (period : ℕ) : Option ℚ :=
  if prices.length < period then none
  else some ((prices.reverse.take period).sum / (period : ℚ))

/-- `base::calculate_ema`: seeded with the first price, recurrence
`ema = α·price + (1−α)·ema` over the rest; default `α = 2/(period+1)`. -/
def calculate_ema (prices : List ℚ) (period : ℕ) (alpha : Option ℚ) : Option ℚ :=
  match prices with
  | [] => none
  | p :: rest =>
    let a := alpha.getD (2 / ((period : ℚ) + 1))
    some (rest.foldl (fun ema price => a * price + (1 - a) * ema) p)

/-- The per-step change list `prices[i] − prices[i−1]`, `i = 1..len−1`,
built by `calculate_rsi`'s first loop. -/
def priceChanges (prices : List ℚ) : List ℚ :=
  match prices with
  | [] => []
  | _ :: t => List.zipWith (fun a b => b - a) prices t

/-- The `gains` vector of `base::calculate_rsi`. -/
def rsiGains (prices : List ℚ) : List ℚ :=
  (priceChanges prices).map (fun c => if 0 < c then c else 0)

/-- The `losses` vector of `base::calculate_rsi`. -/
def rsiLosses (prices : List ℚ) : List ℚ :=
  (priceChanges prices).map (fun c => if 0 < c then (0 : ℚ) else -c)

/-- `avg_gain` of `base::calculate_rsi`: mean of the last `period` gains. -/
def rsiAvgGain (prices : List ℚ) (period : ℕ) : ℚ :=
  ((rsiGains prices).reverse.take period).sum / (period : ℚ)

/-- `avg_loss` of `base::calculate_rsi`: mean of the last `period` losses. -/
def rsiAvgLoss (prices : List ℚ) (period : ℕ) : ℚ :=
  ((rsiLosses prices).reverse.take period).sum / (period : ℚ)

/-- `base::calculate_rsi`: averages of the last `period` gains/losses;
`100` when the average loss is zero, else `100 − 100/(1 + gain/loss)`. -/
def calculate_rsi (prices : List ℚ) (period : ℕ) : Option ℚ :=
  if prices.length < period + 1 then none
  else if (rsiGains prices).length < period then none
  else if rsiAvgLoss prices period = 0 then some 100
  else some (100 - 100 / (1 + rsiAvgGain prices period / rsiAvgLoss prices period))

/-- `base::calculate_macd`: fast EMA minus slow EMA; the signal line is the
MACD line itself (the source's acknowledged simplification), so the
histogram is their difference. -/
def calculate_macd (prices : List ℚ) (fast_period slow_period signal_period : ℕ) :
    Option (ℚ × ℚ × ℚ) :=
  if prices.length < slow_period then none
  else
    match calculate_ema prices fast_period none, calculate_ema prices slow_period none with
    | some fast_ema, some slow_ema =>
      let macd_line := fast_ema - slow_ema
      let signal_line := macd_line
      let histogram := macd_line - signal_line
      some (macd_line, signal_line, histogram)
    | _, _ => none

/-- The MACD line value `calculate_macd` produces on a nonempty input. -/
def macdLineOf (prices : List ℚ) (fast_period slow_period : ℕ) : ℚ :=
  (calculate_ema prices fast_period none).getD 0 -
    (calculate_ema prices slow_period none).getD 0

/-! ## Price Ladder strategy (`strategies::grid`) -/

/-- `GridStrategy`'s state (the `parameters` map is kept as an association
list). `active_orders` models the `HashMap<Decimal, bool>` mapping a level
price to "is a buy order". -/
structure GridState where
  name : String
  symbol : String
  enabled : Bool
  parameters : List (String × JsonValue)
  grid_levels : List ℚ
  grid_spacing : ℚ
  base_price : Option ℚ
  position_size : ℚ
  max_levels : ℕ
  active_orders : List (ℚ × Bool)
  total_investment : ℚ
  max_investment : ℚ
deriving DecidableEq, Repr

/-- `HashMap::insert` on the association-list model: replace an existing
binding, else append. -/
def alistInsert (k : ℚ) (v : Bool) : List (ℚ × Bool) → List (ℚ × Bool)
  | [] => [(k, v)]
  | (k', v') :: t => if k = k' then (k, v) :: t else (k', v') :: alistInsert k v t

/-- `HashMap::get` on the association-list model. -/
def alistLookup (k : ℚ) : List (ℚ × Bool) → Option Bool
  | [] => none
  | (k', v) :: t => if k = k' then some v else alistLookup k t

/-- `GridStrategy::new`: defaults of 1% spacing, $100 per level, 10 levels,
$5000 investment cap, no base price. -/
def grid_new (name symbol : String) : GridState :=
  { name := name
    symbol := symbol
    enabled := true
    parameters := []
    grid_levels := []
    grid_spacing := 1
    base_price := none
    position_size := 100
    max_levels := 10
    active_orders := []
    total_investment := 0
    max_investment := 5000 }

/-- The buy levels `base·(1 − spacing·i/100)` for `i = 1..n`, in the order
`GridStrategy::initialize_grid` pushes them. -/
def grid_buy_levels (base spacing : ℚ) (n : ℕ) : List ℚ :=
  (List.range' 1 n).map (fun i : ℕ => base * (1 - spacing * (i : ℚ) / 100))

/-- The sell levels `base·(1 + spacing·i/100)` for `i = 1..n`, in push
order. -/
def grid_sell_levels (base spacing : ℚ) (n : ℕ) : List ℚ :=
  (List.range' 1 n).map (fun i : ℕ => base * (1 + spacing * (i : ℚ) / 100))

/-- `GridStrategy::initialize_grid`: clear state, push the buy levels (each
registered as a buy order) then the sell levels (registered as sell
orders), and record the base price. -/
def initialize_grid (st : GridState) (base : ℚ) : GridState :=
  let buys := grid_buy_levels base st.grid_spacing st.max_levels
  let sells := grid_sell_levels base st.grid_spacing st.max_levels
  { st with
    base_price := some base
    grid_levels := buys ++ sells
    active_orders :=
      sells.foldl (fun m lv => alistInsert lv false m)
        (buys.foldl (fun m lv => alistInsert lv true m) []) }

/-- `GridStrategy::should_place_buy_order`: under the investment cap, the
first grid level (in `grid_levels` order) that is above the current price
and still registered as a buy order. -/
def should_place_buy_order (st : GridState) (md : MarketData) : Option ℚ :=
  if st.max_investment ≤ st.total_investment then none
  else
    st.grid_levels.find?
      (fun lv => decide (md.price < lv) && decide (alistLookup lv st.active_orders = some true))

/-- `GridStrategy::should_place_sell_order`: the first grid level below the
current price still registered as a sell order. -/
def should_place_sell_order (st : GridState) (md : MarketData) : Option ℚ :=
  st.grid_levels.find?
    (fun lv => decide (lv < md.price) && decide (alistLookup lv st.active_orders = some false))

/-- `GridStrategy::calculate_confidence`: tiered by percentage deviation of
the level from the base price. -/
def grid_calculate_confidence (st : GridState) (action : SignalAction) (price : ℚ) : ℚ :=
  match action with
  | .Buy =>
    match st.base_price with
    | some base =>
      let deviation := (base - price) / base * 100
      if 5 < deviation then 9/10 else if 2 < deviation then 7/10 else 1/2
    | none => 1/2
  | .Sell =>
    match st.base_price with
    | some base =>
      let deviation := (price - base) / base * 100
      if 5 < deviation then 9/10 else if 2 < deviation then 7/10 else 1/2
    | none => 1/2
  | _ => 1/2

/-- The signal `GridStrategy::analyze` emits for a chosen level. -/
def mk_grid_signal (st : GridState) (action : SignalAction) (lv : ℚ) : StrategySignal :=
  { strategy_name := st.name
    symbol := st.symbol
    action := action
    quantity := st.position_size / lv
    price := some lv
    confidence := grid_calculate_confidence st action lv }

/-- `GridStrategy::analyze`: no signal when disabled or uninitialized;
otherwise the buy opportunity if any, else the sell opportunity. -/
def grid_analyze (st : GridState) (md : MarketData) : Option StrategySignal :=
  if st.enabled = false then none
  else
    match st.base_price with
    | none => none
    | some _ =>
      match should_place_buy_order st md with
      | some buy_price => some (mk_grid_signal st .Buy buy_price)
      | none =>
        match should_place_sell_order st md with
        | some sell_price => some (mk_grid_signal st .Sell sell_price)
        | none => none

/-- `GridStrategy::reset_grid`. -/
def reset_grid (st : GridState) : GridState :=
  { st with
    base_price := none
    grid_levels := []
    active_orders := []
    total_investment := 0 }

/-! ## Momentum strategy (`strategies::momentum`) -/

/-- `MomentumStrategy`'s state. -/
structure MomentumState where
  name : String
  symbol : String
  enabled : Bool
  parameters : List (String × JsonValue)
  fast_period : ℕ
  slow_period : ℕ
  signal_period : ℕ
  rsi_period : ℕ
  rsi_oversold : ℚ
  rsi_overbought : ℚ
  price_history : List ℚ
  volume_history : List ℚ
  min_confidence : ℚ
deriving DecidableEq, Repr

/-- `MomentumStrategy::new`: MACD 12/26/9, RSI 14 with 30/70 bounds, empty
histories, minimum confidence 0.6. -/
def momentum_new (name symbol : String) : MomentumState :=
  { name := name
    symbol := symbol
    enabled := true
    parameters := []
    fast_period := 12
    slow_period := 26
    signal_period := 9
    rsi_period := 14
    rsi_oversold := 30
    rsi_overbought := 70
    price_history := []
    volume_history := []
    min_confidence := 3/5 }

/-- `MomentumStrategy::update_history`: append the quote's price/volume and
keep only the trailing `2·slow_period` entries (front entries drained). -/
def momentum_update_history (st : MomentumState) (md : MarketData) : MomentumState :=
  let ph := st.price_history ++ [md.price]
  let vh := st.volume_history ++ [md.volume_24h]
  let max_history := st.slow_period * 2
  { st with
    price_history := if max_history < ph.length then ph.drop (ph.length - max_history) else ph
    volume_history := if max_history < vh.length then vh.drop (vh.length - max_history) else vh }

/-- The `MACD_BULLISH` firing condition. -/
def macdBullishCond (macd_line signal_line histogram : ℚ) : Prop :=
  signal_line < macd_line ∧ 0 < histogram

/-- The `MACD_BEARISH` firing condition. -/
def macdBearishCond (macd_line signal_line histogram : ℚ) : Prop :=
  macd_line < signal_line ∧ histogram < 0

/-- The `PRICE_ABOVE_MA` firing condition (`current_price` is the last
history entry). -/
def priceAboveMACond (st : MomentumState) (fast_sma slow_sma : ℚ) : Prop :=
  fast_sma < st.price_history.getLastD 0 ∧ slow_sma < fast_sma

/-- The `PRICE_BELOW_MA` firing condition. -/
def priceBelowMACond (st : MomentumState) (fast_sma slow_sma : ℚ) : Prop :=
  st.price_history.getLastD 0 < fast_sma ∧ fast_sma < slow_sma

/-- The `HIGH_VOLUME` firing condition: at least two volume entries and the
current volume above 1.5× the trailing average. -/
def highVolumeCond (st : MomentumState) : Prop :=
  2 ≤ st.volume_history.length ∧
    (st.volume_history.sum / (st.volume_history.length : ℚ)) * (3/2) <
      st.volume_history.getLastD 0

instance (m sl h : ℚ) : Decidable (macdBullishCond m sl h) := by
  unfold macdBullishCond
  infer_instance

instance (m sl h : ℚ) : Decidable (macdBearishCond m sl h) := by
  unfold macdBearishCond
  infer_instance

instance (st : MomentumState) (f s : ℚ) : Decidable (priceAboveMACond st f s) := by
  unfold priceAboveMACond
  infer_instance

instance (st : MomentumState) (f s : ℚ) : Decidable (priceBelowMACond st f s) := by
  unfold priceBelowMACond
  infer_instance

instance (st : MomentumState) : Decidable (highVolumeCond st) := by
  unfold highVolumeCond
  infer_instance

/-- The accumulated confidence of `MomentumStrategy::analyze_momentum`:
MACD crossover 0.3 each, RSI bound 0.2 each, price/MA ordering 0.2 (the
two orderings are an if/else-if pair), volume surge 0.1, summed in source
order. -/
def momentumConfidence (st : MomentumState) (m sl h rsi fast_sma slow_sma : ℚ) : ℚ :=
  (if macdBullishCond m sl h then 3/10 else 0) +
  (if macdBearishCond m sl h then 3/10 else 0) +
  (if rsi < st.rsi_oversold then 1/5 else 0) +
  (if st.rsi_overbought < rsi then 1/5 else 0) +
  (if priceAboveMACond st fast_sma slow_sma then 1/5
   else if priceBelowMACond st fast_sma slow_sma then 1/5 else 0) +
  (if highVolumeCond st then 1/10 else 0)

/-- The bullish tag count (`BULLISH`/`OVERSOLD`/`ABOVE` tags). -/
def momentumBullishCount (st : MomentumState) (m sl h rsi fast_sma slow_sma : ℚ) : ℕ :=
  (if macdBullishCond m sl h then 1 else 0) +
  (if rsi < st.rsi_oversold then 1 else 0) +
  (if priceAboveMACond st fast_sma slow_sma then 1 else 0)

/-- The bearish tag count (`BEARISH`/`OVERBOUGHT`/`BELOW` tags). -/
def momentumBearishCount (st : MomentumState) (m sl h rsi fast_sma slow_sma : ℚ) : ℕ :=
  (if macdBearishCond m sl h then 1 else 0) +
  (if st.rsi_overbought < rsi then 1 else 0) +
  (if priceBelowMACond st fast_sma slow_sma then 1 else 0)

/-- `MomentumStrategy::analyze_momentum`: score the six indicator
conditions, then emit Buy/Sell when the bullish/bearish majority holds and
the accumulated confidence reaches `min_confidence`.  The bullish count
collects the `BULLISH`/`OVERSOLD`/`ABOVE` tags and the bearish count the
`BEARISH`/`OVERBOUGHT`/`BELOW` tags, resolving the source's substring
filters on the six tag strings.  The `last().unwrap()` on the price
history is modelled with `getLastD` (only reached when the history is
nonempty, since `calculate_macd` already returned a value). -/
def analyze_momentum (st : MomentumState) : Option (SignalAction × ℚ) :=
  if st.price_history.length < st.slow_period then none
  else
    match calculate_macd st.price_history st.fast_period st.slow_period st.signal_period with
    | none => none
    | some (macd_line, signal_line, histogram) =>
      match calculate_rsi st.price_history st.rsi_period with
      | none => none
      | some rsi =>
        match calculate_sma st.price_history st.fast_period with
        | none => none
        | some fast_sma =>
          match calculate_sma st.price_history st.slow_period with
          | none => none
          | some slow_sma =>
            if st.min_confidence ≤
                momentumConfidence st macd_line signal_line histogram rsi fast_sma slow_sma then
              if momentumBearishCount st macd_line signal_line histogram rsi fast_sma slow_sma <
                  momentumBullishCount st macd_line signal_line histogram rsi fast_sma slow_sma then
                some (.Buy, momentumConfidence st macd_line signal_line histogram rsi fast_sma slow_sma)
              else if momentumBullishCount st macd_line signal_line histogram rsi fast_sma slow_sma <
                  momentumBearishCount st macd_line signal_line histogram rsi fast_sma slow_sma then
                some (.Sell, momentumConfidence st macd_line signal_line histogram rsi fast_sma slow_sma)
              else none
            else none

/-- `MomentumStrategy::calculate_position_size`: $100 base scaled by
confidence, divided by the quote price (`from_f64_retain` is exact in
`ℚ`, so its `unwrap_or(1)` fallback is unreachable in the model). -/
def momentum_position_size (md : MarketData) (confidence : ℚ) : ℚ :=
  100 * confidence / md.price

/-- `MomentumStrategy::analyze`: clone, push the quote into the history,
and score the updated clone. -/
def momentum_analyze (st : MomentumState) (md : MarketData) : Option StrategySignal :=
  if st.enabled = false then none
  else
    let st' := momentum_update_history st md
    match analyze_momentum st' with
    | some (action, confidence) =>
      some
        { strategy_name := st.name
          symbol := st.symbol
          action := action
          quantity := momentum_position_size md confidence
          price := some md.price
          confidence := confidence }
    | none => none

/-- `MomentumStrategy::update_parameters`' per-entry action: store a
recognized key's parsed value, ignore everything else.  No validation is
performed. -/
def momentum_apply_param (st : MomentumState) (k : String) (v : JsonValue) : MomentumState :=
  if k = "fast_period" then
    match jsonAsU64 v with
    | some period => { st with fast_period := period }
    | none => st
  else if k = "slow_period" then
    match jsonAsU64 v with
    | some period => { st with slow_period := period }
    | none => st
  else if k = "signal_period" then
    match jsonAsU64 v with
    | some period => { st with signal_period := period }
    | none => st
  else if k = "rsi_period" then
    match jsonAsU64 v with
    | some period => { st with rsi_period := period }
    | none => st
  else if k = "rsi_oversold" then
    match (jsonAsStr v).bind parseDecimal with
    | some level => { st with rsi_oversold := level }
    | none => st
  else if k = "rsi_overbought" then
    match (jsonAsStr v).bind parseDecimal with
    | some level => { st with rsi_overbought := level }
    | none => st
  else if k = "min_confidence" then
    match jsonAsF64 v with
    | some conf => { st with min_confidence := conf }
    | none => st
  else st

/-- `MomentumStrategy::update_parameters`: apply every entry, then store
the whole map; always returns `Ok`. -/
def momentum_update_parameters (st : MomentumState) (params : List (String × JsonValue)) :
    Except String MomentumState :=
  let st' := params.foldl (fun s kv => momentum_apply_param s kv.1 kv.2) st
  .ok { st' with parameters := params }

/-- `MomentumStrategy::validate_parameters`' per-entry check. -/
def momentum_validate_param (k : String) (v : JsonValue) : Except String Unit :=
  if k = "fast_period" ∨ k = "slow_period" ∨ k = "signal_period" ∨ k = "rsi_period" then
    match jsonAsU64 v with
    | some period =>
      if period = 0 ∨ 100 < period then .error (k ++ " must be between 1 and 100") else .ok ()
    | none => .ok ()
  else if k = "rsi_oversold" ∨ k = "rsi_overbought" then
    match (jsonAsStr v).bind parseDecimal with
    | some level =>
      if level < 0 ∨ 100 < level then .error (k ++ " must be between 0 and 100") else .ok ()
    | none => .ok ()
  else if k = "min_confidence" then
    match jsonAsF64 v with
    | some conf =>
      if conf < 0 ∨ 1 < conf then .error "Min confidence must be between 0 and 1" else .ok ()
    | none => .ok ()
  else .ok ()

/-- `MomentumStrategy::validate_parameters`: first failing entry wins,
state untouched. -/
def momentum_validate_parameters : List (String × JsonValue) → Except String Unit
  | [] => .ok ()
  | (k, v) :: t =>
    match momentum_validate_param k v with
    | .ok _ => momentum_validate_parameters t
    | .error e => .error e

/-! ## DCA strategy (`strategies::dca`) — the parts the claims exercise -/

/-- `DCAStrategy`'s state (`last_buy_time` as an abstract instant). -/
structure DCAState where
  name : String
  symbol : String
  enabled : Bool
  parameters : List (String × JsonValue)
  investment_amount : ℚ
  interval_hours : ℕ
  last_buy_time : Option ℤ
  max_investment : ℚ
  current_investment : ℚ
  price_history : List ℚ
  lookback_period : ℕ
deriving DecidableEq, Repr

/-- `DCAStrategy::new`: $100 per interval, daily, $10000 cap, 20-price
lookback. -/
def dca_new (name symbol : String) : DCAState :=
  { name := name
    symbol := symbol
    enabled := true
    parameters := []
    investment_amount := 100
    interval_hours := 24
    last_buy_time := none
    max_investment := 10000
    current_investment := 0
    price_history := []
    lookback_period := 20 }

/-- `DCAStrategy::update_parameters`' per-entry action: store a recognized
key's parsed value, ignore everything else.  No validation is performed. -/
def dca_apply_param (st : DCAState) (k : String) (v : JsonValue) : DCAState :=
  if k = "investment_amount" then
    match (jsonAsStr v).bind parseDecimal with
    | some amount => { st with investment_amount := amount }
    | none => st
  else if k = "interval_hours" then
    match jsonAsU64 v with
    | some hours => { st with interval_hours := hours }
    | none => st
  else if k = "max_investment" then
    match (jsonAsStr v).bind parseDecimal with
    | some maxv => { st with max_investment := maxv }
    | none => st
  else if k = "lookback_period" then
    match jsonAsU64 v with
    | some period => { st with lookback_period := period }
    | none => st
  else st

/-- `DCAStrategy::update_parameters`: apply every entry, then store the
whole map; always returns `Ok`. -/
def dca_update_parameters (st : DCAState) (params : List (String × JsonValue)) :
    Except String DCAState :=
  let st' := params.foldl (fun s kv => dca_apply_param s kv.1 kv.2) st
  .ok { st' with parameters := params }

/-- `DCAStrategy::validate_parameters`' per-entry check. -/
def dca_validate_param (k : String) (v : JsonValue) : Except String Unit :=
  if k = "investment_amount" then
    match (jsonAsStr v).bind parseDecimal with
    | some amount =>
      if amount ≤ 0 then .error "Investment amount must be positive" else .ok ()
    | none => .ok ()
  else if k = "interval_hours" then
    match jsonAsU64 v with
    | some hours =>
      if hours = 0 then .error "Interval hours must be greater than 0" else .ok ()
    | none => .ok ()
  else if k = "max_investment" then
    match (jsonAsStr v).bind parseDecimal with
    | some maxv =>
      if maxv ≤ 0 then .error "Max investment must be positive" else .ok ()
    | none => .ok ()
  else .ok ()

/-- `DCAStrategy::validate_parameters`: first failing entry wins, state
untouched. -/
def dca_validate_parameters : List (String × JsonValue) → Except String Unit
  | [] => .ok ()
  | (k, v) :: t =>
    match dca_validate_param k v with
    | .ok _ => dca_validate_parameters t
    | .error e => .error e

/-! ## Risk manager and orchestrator (`trading_bot`) -/

/-- `RiskManager::check_risk_limits`: fail on breached daily-loss limit or
any open position whose notional exceeds `max_position_size`. -/
def check_risk_limits (cfg : RiskManagementConfig) (acct : AccountInfo) : Bool :=
  !(decide (acct.total_pnl < -cfg.max_daily_loss)) &&
    acct.positions.all (fun p => !(decide (cfg.max_position_size < p.size * p.current_price)))

/-- `RiskManager::check_signal_risk`: when the signal carries a price, its
notional must not exceed `max_position_size`. -/
def check_signal_risk (cfg : RiskManagementConfig) (sig : StrategySignal)
    (acct : AccountInfo) : Bool :=
  match sig.price with
  | some price => !(decide (cfg.max_position_size < sig.quantity * price))
  | none => true

/-- `TradingBot::should_execute_signal` (the execution gate): balance check
with the price defaulted to zero, then risk check, then the 0.5 confidence
floor. -/
def should_execute_signal (cfg : RiskManagementConfig) (sig : StrategySignal)
    (acct : AccountInfo) : Bool :=
  if acct.available_balance < sig.quantity * (sig.price.getD 0) then false
  else if !(check_signal_risk cfg sig acct) then false
  else if sig.confidence < 1/2 then false
  else true

/-- `TradingBot::execute_signal`, with the dry-run flag, the statistics
value and the Exchange Client's verdict passed explicitly.  Returns the new
statistics, whether `place_order` was called, and whether the function
returned `Ok`. -/
def execute_signal (dry_run : Bool) (stats : TradeStats) (sig : StrategySignal)
    (place_order_ok : Bool) : TradeStats × Bool × Bool :=
  if dry_run then (stats, false, true)
  else
    match sig.action with
    | .Hold => (stats, false, true)
    | .Close => (stats, false, true)
    | _ =>
      if place_order_ok then
        ({ stats with
            total_trades := stats.total_trades + 1
            successful_trades := stats.successful_trades + 1 }, true, true)
      else
        ({ stats with
            total_trades := stats.total_trades + 1
            failed_trades := stats.failed_trades + 1 }, true, false)

/-- The reset half of `TradingBot::update_trade_stats`: zero `daily_pnl`
and advance `last_reset_date` when the observed UTC date has advanced. -/
def reset_daily_if_new_day (stats : TradeStats) (today : ℤ) : TradeStats :=
  if stats.last_reset_date < today then
    { stats with daily_pnl := 0, last_reset_date := today }
  else stats

/-- `TradingBot::update_trade_stats`: the date-advance reset, then both PnL
fields taken from the account snapshot. -/
def update_trade_stats (stats : TradeStats) (today : ℤ) (acct : AccountInfo) : TradeStats :=
  let s := reset_daily_if_new_day stats today
  { s with total_pnl := acct.total_pnl, daily_pnl := acct.total_pnl }

/-! ## Concrete states used by counterexamples and witnesses -/

/-- A fresh 10-level grid initialized at base price 100 with the default 1%
spacing: buy levels 99, 98, …, 90 and sell levels 101, 102, …, 110, all
untriggered. -/
def gridEx : GridState := initialize_grid (grid_new "grid" "BTC") 100

/-- A quote at price 97.5 for the grid examples. -/
def mdBuyEx : MarketData :=
  { symbol := "BTC", price := 195/2, volume_24h := 1000, change_24h := 0
    high_24h := 100, low_24h := 95 }

/-- A quote at price 103.5 for the grid sell example. -/
def mdSellEx : MarketData :=
  { symbol := "BTC", price := 207/2, volume_24h := 1000, change_24h := 0
    high_24h := 104, low_24h := 100 }

/-- Zeroed trade statistics. -/
def statsEx : TradeStats :=
  { total_trades := 0, successful_trades := 0, failed_trades := 0
    total_pnl := 0, daily_pnl := 0, last_reset_date := 0 }

/-- The spec's end-to-end scenario signal: quantity 5 at price 100,
confidence 0.9. -/
def sigEx : StrategySignal :=
  { strategy_name := "grid", symbol := "BTC", action := .Buy
    quantity := 5, price := some 100, confidence := 9/10 }

/-- A signal without a limit price, confidence 0.9. -/
def sigNoPriceEx : StrategySignal :=
  { strategy_name := "momentum", symbol := "BTC", action := .Buy
    quantity := 1, price := none, confidence := 9/10 }

/-- Risk configuration with `max_position_size = 10000` and a $1000 daily
loss cap. -/
def riskCfgEx : RiskManagementConfig :=
  { max_daily_loss := 1000, max_position_size := 10000
    stop_loss_percentage := 5, take_profit_percentage := 10
    max_drawdown_percentage := 20 }

/-- The spec's end-to-end account snapshot: available balance 1000. -/
def acctEx : AccountInfo :=
  { balance := 1000, available_balance := 1000, total_pnl := 0
    total_margin := 0, positions := [] }

/-- An account snapshot whose available balance is negative (price-less
gate counterexample). -/
def acctNegEx : AccountInfo :=
  { balance := 0, available_balance := -1, total_pnl := 0
    total_margin := 0, positions := [] }

/-- An account snapshot with total PnL 7. -/
def acctPnl7 : AccountInfo :=
  { balance := 0, available_balance := 0, total_pnl := 7
    total_margin := 0, positions := [] }

/-- An account snapshot with total PnL 9. -/
def acctPnl9 : AccountInfo :=
  { balance := 0, available_balance := 0, total_pnl := 9
    total_margin := 0, positions := [] }

/-! ## Theorems -/

/-- C1 (counterexample): on the spec's end-to-end scenario — an accepted
signal (quantity 5 at price 100, confidence 0.9, balance 1000) — dry-run
`execute_signal` returns the statistics unchanged and calls no Exchange
Client: `totalTrades` and `successfulTrades` stay 0, not the claimed
increments to 1. -/
theorem c1_dry_run_counterexample :
    should_execute_signal riskCfgEx sigEx acctEx = true ∧
    execute_signal true statsEx sigEx true = (statsEx, false, true) ∧
    (execute_signal true statsEx sigEx true).1.total_trades = 0 ∧
    (execute_signal true statsEx sigEx true).1.successful_trades = 0 ∧
    statsEx.total_trades + 1 = 1 ∧
    statsEx.successful_trades + 1 = 1 :=
  of_decide_eq_true (by with_unfolding_all rfl)

/-- C1 (amended): with dry-run enabled, `execute_signal` performs no
Exchange Client call, returns success, and leaves `totalTrades`,
`successfulTrades` and `failedTrades` (indeed all statistics) unchanged. -/
theorem execute_signal_dry_run_noop (stats : TradeStats) (sig : StrategySignal)
    (place_order_ok : Bool) :
    execute_signal true stats sig place_order_ok = (stats, false, true) :=
  rfl

/-- C2 (counterexample): a proposal without a price (confidence 0.9)
against a snapshot with `availableBalance = −1` satisfies all three claimed
acceptance conditions — (a) is vacuous with no price present, the risk
check (b) passes, and (c) `confidence ≥ 0.5` — yet the gate rejects it,
because the code compares `quantity × 0 = 0 > −1` against the balance. -/
theorem c2_priceless_gate_counterexample :
    should_execute_signal riskCfgEx sigNoPriceEx acctNegEx = false ∧
    sigNoPriceEx.price = none ∧
    check_signal_risk riskCfgEx sigNoPriceEx acctNegEx = true ∧
    (1/2 : ℚ) ≤ sigNoPriceEx.confidence :=
  of_decide_eq_true (by with_unfolding_all rfl)

/-- C2 (amended): the gate accepts a proposal iff (a′) `quantity` times the
price-or-zero is at most `availableBalance` (so, with a price present,
`quantity × price ≤ availableBalance`; with none, `0 ≤ availableBalance`),
(b) `check_signal_risk` passes, and (c) `confidence ≥ 0.5`. -/
theorem should_execute_signal_iff (cfg : RiskManagementConfig) (sig : StrategySignal)
    (acct : AccountInfo) :
    should_execute_signal cfg sig acct = true ↔
      (sig.quantity * sig.price.getD 0 ≤ acct.available_balance ∧
        check_signal_risk cfg sig acct = true ∧ 1/2 ≤ sig.confidence) := by
  unfold should_execute_signal
  split_ifs with h1 h2 h3
  · simp only [false_iff]
    rintro ⟨ha, -, -⟩
    exact absurd h1 (not_lt.mpr ha)
  · simp only [false_iff]
    rintro ⟨-, hb, -⟩
    rw [hb] at h2
    simp at h2
  · simp only [false_iff]
    rintro ⟨-, -, hc⟩
    exact absurd h3 (not_lt.mpr hc)
  · simp only [true_iff]
    refine ⟨not_lt.mp h1, ?_, not_lt.mp h3⟩
    simpa using h2

/-- C3 (code bug): `update_parameters` never invokes the validation the
trait provides.  `{"interval_hours": 0}` fails `DCAStrategy`'s own
`validate_parameters`, yet `update_parameters` stores the zero interval and
returns `Ok`; likewise `{"fast_period": 0}` fails `MomentumStrategy`'s
`validate_parameters`, yet its `update_parameters` stores it and returns
`Ok` — prior state is not preserved and no failure is reported. -/
theorem update_parameters_bypasses_validation :
    (dca_validate_parameters [("interval_hours", JsonValue.jnat 0)]).isOk = false ∧
    (dca_update_parameters (dca_new "dca" "BTC")
        [("interval_hours", JsonValue.jnat 0)]).toOption.map DCAState.interval_hours = some 0 ∧
    (dca_new "dca" "BTC").interval_hours = 24 ∧
    (momentum_validate_parameters [("fast_period", JsonValue.jnat 0)]).isOk = false ∧
    (momentum_update_parameters (momentum_new "mom" "BTC")
        [("fast_period", JsonValue.jnat 0)]).toOption.map MomentumState.fast_period = some 0 ∧
    (momentum_new "mom" "BTC").fast_period = 12 := by
  decide

/-- C6 (counterexample): the claim quantifies over all period parameters
and every price sequence of length at least `slowPeriod`; with
`slowPeriod = 0` the empty sequence qualifies, yet `calculate_macd` returns
no triple at all (the EMA of an empty sequence is "insufficient data"). -/
theorem c6_macd_empty_counterexample :
    (0 : ℕ) ≤ ([] : List ℚ).length ∧
    calculate_macd ([] : List ℚ) 12 0 9 = none := by
  decide

/-- C6 (amended): for every nonempty price sequence of length at least
`slowPeriod` and all period parameters, MACD returns a triple whose signal
line equals its MACD line and whose histogram is exactly zero. -/
theorem macd_signal_equals_macd_line (prices : List ℚ) (fast_period slow_period signal_period : ℕ)
    (hlen : slow_period ≤ prices.length) (hne : prices ≠ []) :
    calculate_macd prices fast_period slow_period signal_period =
      some (macdLineOf prices fast_period slow_period,
        macdLineOf prices fast_period slow_period, 0) := by
  rcases prices with - | ⟨p, t⟩
  · exact absurd rfl hne
  · unfold calculate_macd macdLineOf calculate_ema
    rw [if_neg (not_lt.mpr hlen)]
    simp [sub_self]

/-- C6 witness: the amended MACD theorem evaluated at `[1, 2, 3]` with
fast 2, slow 3. -/
theorem macd_signal_equals_macd_line_witness :
    calculate_macd [1, 2, 3] 2 3 9 =
      some (macdLineOf [1, 2, 3] 2 3, macdLineOf [1, 2, 3] 2 3, 0) :=
  macd_signal_equals_macd_line [1, 2, 3] 2 3 9 (by decide) (by decide)

/-- C7: when the observed UTC date has advanced past `last_reset_date`,
the statistics update fires the daily reset exactly once — the reset step
zeroes `dailyPnL` and advances `last_reset_date` to today, a second update
on the same date leaves the reset step a no-op — and after any update
`dailyPnL` holds the value the update assigns after the reset takes
effect (the snapshot's total PnL). -/
theorem daily_pnl_resets_once (stats : TradeStats) (today : ℤ) (a1 a2 : AccountInfo)
    (h : stats.last_reset_date < today) :
    reset_daily_if_new_day stats today =
      { stats with daily_pnl := 0, last_reset_date := today } ∧
    (update_trade_stats stats today a1).last_reset_date = today ∧
    (update_trade_stats stats today a1).daily_pnl = a1.total_pnl ∧
    reset_daily_if_new_day (update_trade_stats stats today a1) today =
      update_trade_stats stats today a1 ∧
    update_trade_stats (update_trade_stats stats today a1) today a2 =
      { update_trade_stats stats today a1 with
          total_pnl := a2.total_pnl, daily_pnl := a2.total_pnl } := by
  unfold update_trade_stats reset_daily_if_new_day
  rw [if_pos h]
  simp [lt_irrefl]

/-- C7 witness: the reset-once theorem evaluated on zeroed statistics
(last reset at day 0), observed day 1, and snapshots with PnL 7 then 9. -/
theorem daily_pnl_resets_once_witness :
    statsEx.last_reset_date < 1 ∧
    (reset_daily_if_new_day statsEx 1 =
        { statsEx with daily_pnl := 0, last_reset_date := 1 } ∧
      (update_trade_stats statsEx 1 acctPnl7).last_reset_date = 1 ∧
      (update_trade_stats statsEx 1 acctPnl7).daily_pnl = acctPnl7.total_pnl ∧
      reset_daily_if_new_day (update_trade_stats statsEx 1 acctPnl7) 1 =
        update_trade_stats statsEx 1 acctPnl7 ∧
      update_trade_stats (update_trade_stats statsEx 1 acctPnl7) 1 acctPnl9 =
        { update_trade_stats statsEx 1 acctPnl7 with
            total_pnl := acctPnl9.total_pnl, daily_pnl := acctPnl9.total_pnl }) :=
  ⟨by decide, daily_pnl_resets_once statsEx 1 acctPnl7 acctPnl9 (by decide)⟩

/-- C10: while the grid is uninitialized (`base_price` unset, as after
construction or `reset_grid`), `GridStrategy::analyze` returns no proposal,
whatever the rest of the state and the quote. -/
theorem grid_uninitialized_no_signal (st : GridState) (md : MarketData)
    (h : st.base_price = none) :
    grid_analyze st md = none := by
  unfold grid_analyze
  rw [h]
  cases st.enabled <;> simp

/-- C10 witness: no signal from a freshly constructed grid strategy, nor
from an initialized one after `reset_grid`. -/
theorem grid_uninitialized_no_signal_witness :
    (grid_new "grid" "BTC").base_price = none ∧
    grid_analyze (grid_new "grid" "BTC") mdBuyEx = none ∧
    (reset_grid gridEx).base_price = none ∧
    grid_analyze (reset_grid gridEx) mdBuyEx = none :=
  ⟨rfl, grid_uninitialized_no_signal _ _ rfl, rfl, grid_uninitialized_no_signal _ _ rfl⟩

/-! ### Grid structure lemmas -/

theorem alistInsert_append (k : ℚ) (v : Bool) (l : List (ℚ × Bool))
    (h : ∀ p ∈ l, p.1 ≠ k) :
    alistInsert k v l = l ++ [(k, v)] := by
  induction l with
  | nil => rfl
  | cons hd t ih =>
    rcases hd with ⟨k', v'⟩
    have hk : ¬ k = k' := fun he => h (k', v') (List.mem_cons_self _ _) he.symm
    simp only [alistInsert, if_neg hk, List.cons_append]
    rw [ih (fun p hp => h p (List.mem_cons_of_mem _ hp))]

theorem foldl_alistInsert (v : Bool) (ls : List ℚ) (m : List (ℚ × Bool))
    (hnd : ls.Nodup) (hdisj : ∀ x ∈ ls, ∀ p ∈ m, p.1 ≠ x) :
    ls.foldl (fun acc lv => alistInsert lv v acc) m = m ++ ls.map (fun x => (x, v)) := by
  induction ls generalizing m with
  | nil => simp
  | cons a t ih =>
    have hd2 : ∀ x ∈ t, ∀ p ∈ m ++ [(a, v)], p.1 ≠ x := by
      intro x hx p hp
      rcases List.mem_append.mp hp with hm | hs
      · exact hdisj x (List.mem_cons_of_mem _ hx) p hm
      · have hpa : p = (a, v) := by simpa using hs
        subst hpa
        intro he
        have hax : a = x := he
        subst hax
        exact (List.nodup_cons.mp hnd).1 hx
    rw [List.foldl_cons,
      alistInsert_append a v m (fun p hp => hdisj a (List.mem_cons_self _ _) p hp),
      ih (m ++ [(a, v)]) (List.nodup_cons.mp hnd).2 hd2]
    simp

theorem alistLookup_map_self {k : ℚ} {v : Bool} {ls : List ℚ} (h : k ∈ ls) :
    alistLookup k (ls.map (fun x => (x, v))) = some v := by
  induction ls with
  | nil => cases h
  | cons a t ih =>
    by_cases hk : k = a
    · simp [alistLookup, hk]
    · have ht : k ∈ t := by
        rcases List.mem_cons.mp h with h' | h'
        · exact absurd h' hk
        · exact h'
      simpa [alistLookup, hk] using ih ht

theorem alistLookup_map_append_left {k : ℚ} {v : Bool} {ls : List ℚ}
    (rest : List (ℚ × Bool)) (h : k ∈ ls) :
    alistLookup k (ls.map (fun x => (x, v)) ++ rest) = some v := by
  induction ls with
  | nil => cases h
  | cons a t ih =>
    by_cases hk : k = a
    · simp [alistLookup, hk]
    · have ht : k ∈ t := by
        rcases List.mem_cons.mp h with h' | h'
        · exact absurd h' hk
        · exact h'
      simpa [alistLookup, hk] using ih ht

theorem alistLookup_map_append_right {k : ℚ} {v : Bool} {ls : List ℚ}
    (rest : List (ℚ × Bool)) (h : k ∉ ls) :
    alistLookup k (ls.map (fun x => (x, v)) ++ rest) = alistLookup k rest := by
  induction ls with
  | nil => simp
  | cons a t ih =>
    have hka : ¬ k = a := fun he => h (he ▸ List.mem_cons_self a t)
    have hkt : k ∉ t := fun ht => h (List.mem_cons_of_mem _ ht)
    simpa [alistLookup, hka] using ih hkt

theorem grid_buy_levels_injective {B s : ℚ} (hB : 0 < B) (hs : 0 < s) :
    Function.Injective (fun i : ℕ => B * (1 - s * (i : ℚ) / 100)) := by
  intro i j hij
  simp only at hij
  have h1 : 1 - s * (i : ℚ) / 100 = 1 - s * (j : ℚ) / 100 :=
    mul_left_cancel₀ (ne_of_gt hB) hij
  field_simp at h1
  rcases h1 with h | h
  · exact h
  · exact absurd h (ne_of_gt hs)

theorem grid_sell_levels_injective {B s : ℚ} (hB : 0 < B) (hs : 0 < s) :
    Function.Injective (fun i : ℕ => B * (1 + s * (i : ℚ) / 100)) := by
  intro i j hij
  simp only at hij
  have h1 : 1 + s * (i : ℚ) / 100 = 1 + s * (j : ℚ) / 100 :=
    mul_left_cancel₀ (ne_of_gt hB) hij
  field_simp at h1
  rcases h1 with h | h
  · exact h
  · exact absurd h (ne_of_gt hs)

theorem grid_buy_levels_nodup {B s : ℚ} (hB : 0 < B) (hs : 0 < s) (n : ℕ) :
    (grid_buy_levels B s n).Nodup :=
  List.Nodup.map (grid_buy_levels_injective hB hs) (List.nodup_range' 1 n)

theorem grid_sell_levels_nodup {B s : ℚ} (hB : 0 < B) (hs : 0 < s) (n : ℕ) :
    (grid_sell_levels B s n).Nodup :=
  List.Nodup.map (grid_sell_levels_injective hB hs) (List.nodup_range' 1 n)

theorem grid_buy_levels_lt_base {B s : ℚ} (hB : 0 < B) (hs : 0 < s) {n : ℕ} :
    ∀ x ∈ grid_buy_levels B s n, x < B := by
  intro x hx
  rcases List.mem_map.mp hx with ⟨i, hi, rfl⟩
  rcases List.mem_range'.mp hi with ⟨j, hj, rfl⟩
  have hipos : (0 : ℚ) < ((1 + 1 * j : ℕ) : ℚ) := by
    push_cast
    positivity
  have hdev : 0 < s * ((1 + 1 * j : ℕ) : ℚ) / 100 := by positivity
  nlinarith

theorem grid_sell_levels_gt_base {B s : ℚ} (hB : 0 < B) (hs : 0 < s) {n : ℕ} :
    ∀ x ∈ grid_sell_levels B s n, B < x := by
  intro x hx
  rcases List.mem_map.mp hx with ⟨i, hi, rfl⟩
  rcases List.mem_range'.mp hi with ⟨j, hj, rfl⟩
  have hipos : (0 : ℚ) < ((1 + 1 * j : ℕ) : ℚ) := by
    push_cast
    positivity
  have hdev : 0 < s * ((1 + 1 * j : ℕ) : ℚ) / 100 := by positivity
  nlinarith

theorem initialize_grid_levels_eq (st : GridState) (B : ℚ) :
    (initialize_grid st B).grid_levels =
      grid_buy_levels B st.grid_spacing st.max_levels ++
        grid_sell_levels B st.grid_spacing st.max_levels := by
  simp [initialize_grid]

theorem initialize_grid_active_orders (st : GridState) (B : ℚ)
    (hB : 0 < B) (hs : 0 < st.grid_spacing) :
    (initialize_grid st B).active_orders =
      (grid_buy_levels B st.grid_spacing st.max_levels).map (fun x => (x, true)) ++
        (grid_sell_levels B st.grid_spacing st.max_levels).map (fun x => (x, false)) := by
  have hdisj : ∀ x ∈ grid_sell_levels B st.grid_spacing st.max_levels,
      ∀ p ∈ ([] : List (ℚ × Bool)) ++
        (grid_buy_levels B st.grid_spacing st.max_levels).map (fun x => (x, true)),
      p.1 ≠ x := by
    intro x hx p hp
    simp only [List.nil_append] at hp
    rcases List.mem_map.mp hp with ⟨b, hb, rfl⟩
    have h1 : b < B := grid_buy_levels_lt_base hB hs b hb
    have h2 : B < x := grid_sell_levels_gt_base hB hs x hx
    intro he
    have hbx : b = x := he
    rw [hbx] at h1
    linarith
  show (grid_sell_levels B st.grid_spacing st.max_levels).foldl
      (fun m lv => alistInsert lv false m)
      ((grid_buy_levels B st.grid_spacing st.max_levels).foldl
        (fun m lv => alistInsert lv true m) []) = _
  rw [foldl_alistInsert true _ [] (grid_buy_levels_nodup hB hs _) (by simp),
    foldl_alistInsert false _ _ (grid_sell_levels_nodup hB hs _) hdisj]
  simp

theorem initialize_grid_lookup_buy (st : GridState) (B : ℚ)
    (hB : 0 < B) (hs : 0 < st.grid_spacing) {x : ℚ}
    (hx : x ∈ grid_buy_levels B st.grid_spacing st.max_levels) :
    alistLookup x (initialize_grid st B).active_orders = some true := by
  rw [initialize_grid_active_orders st B hB hs]
  exact alistLookup_map_append_left _ hx

theorem initialize_grid_lookup_sell (st : GridState) (B : ℚ)
    (hB : 0 < B) (hs : 0 < st.grid_spacing) {x : ℚ}
    (hx : x ∈ grid_sell_levels B st.grid_spacing st.max_levels) :
    alistLookup x (initialize_grid st B).active_orders = some false := by
  rw [initialize_grid_active_orders st B hB hs]
  have hnb : x ∉ grid_buy_levels B st.grid_spacing st.max_levels := by
    intro hxb
    have h1 : x < B := grid_buy_levels_lt_base hB hs x hxb
    have h2 : B < x := grid_sell_levels_gt_base hB hs x hx
    linarith
  rw [alistLookup_map_append_right _ hnb]
  exact alistLookup_map_self hx

/-- C5: initializing the grid at base price `B > 0` with spacing
`s ∈ (0, 50]` and `n ≥ 1` levels yields exactly `2n` levels; for
`k = 1..n` the `k`-th buy level (position `k−1`) equals
`B·(1 − k·s/100)` and is registered as a buy order, and the `k`-th sell
level (position `n+k−1`) equals `B·(1 + k·s/100)` and is registered as a
sell order. -/
theorem grid_initialize_levels (st : GridState) (B : ℚ) (n k : ℕ)
    (hB : 0 < B) (hs : 0 < st.grid_spacing) (hs50 : st.grid_spacing ≤ 50)
    (hn : 1 ≤ n) (hml : st.max_levels = n) (hk1 : 1 ≤ k) (hkn : k ≤ n) :
    (initialize_grid st B).grid_levels.length = 2 * n ∧
    (initialize_grid st B).grid_levels[k - 1]? =
      some (B * (1 - st.grid_spacing * (k : ℚ) / 100)) ∧
    (initialize_grid st B).grid_levels[n + (k - 1)]? =
      some (B * (1 + st.grid_spacing * (k : ℚ) / 100)) ∧
    alistLookup (B * (1 - st.grid_spacing * (k : ℚ) / 100))
      (initialize_grid st B).active_orders = some true ∧
    alistLookup (B * (1 + st.grid_spacing * (k : ℚ) / 100))
      (initialize_grid st B).active_orders = some false := by
  have hlb : (grid_buy_levels B st.grid_spacing st.max_levels).length = n := by
    simp [grid_buy_levels, List.length_range', hml]
  have hls : (grid_sell_levels B st.grid_spacing st.max_levels).length = n := by
    simp [grid_sell_levels, List.length_range', hml]
  have hnat : 1 + 1 * (k - 1) = k := by omega
  refine ⟨?_, ?_, ?_, ?_, ?_⟩
  · rw [initialize_grid_levels_eq, List.length_append, hlb, hls]
    omega
  · rw [initialize_grid_levels_eq, List.getElem?_append_left (by omega : k - 1 < _)]
    unfold grid_buy_levels
    rw [List.getElem?_map, List.getElem?_range' 1 1 (by omega : k - 1 < st.max_levels), hnat]
    simp
  · rw [initialize_grid_levels_eq, List.getElem?_append_right (by omega : _ ≤ n + (k - 1))]
    unfold grid_sell_levels
    have hidx : n + (k - 1) - (grid_buy_levels B st.grid_spacing st.max_levels).length
        = k - 1 := by omega
    rw [hidx, List.getElem?_map, List.getElem?_range' 1 1 (by omega : k - 1 < st.max_levels),
      hnat]
    simp
  · refine initialize_grid_lookup_buy st B hB hs ?_
    refine List.mem_map.mpr ⟨k, ?_, rfl⟩
    refine List.mem_range'.mpr ⟨k - 1, by omega, by omega⟩
  · refine initialize_grid_lookup_sell st B hB hs ?_
    refine List.mem_map.mpr ⟨k, ?_, rfl⟩
    refine List.mem_range'.mpr ⟨k - 1, by omega, by omega⟩

/-- C5 witness: the initialization theorem evaluated on a default grid
strategy (spacing 1%, 10 levels) at base price 100, for the second level
pair: positions 1 and 11 hold `100·(1 − 2/100)` and `100·(1 + 2/100)`,
tagged buy and sell. -/
theorem grid_initialize_levels_witness :
    (initialize_grid (grid_new "grid" "BTC") 100).grid_levels.length = 2 * 10 ∧
    (initialize_grid (grid_new "grid" "BTC") 100).grid_levels[(2 : ℕ) - 1]? =
      some (100 * (1 - (grid_new "grid" "BTC").grid_spacing * ((2 : ℕ) : ℚ) / 100)) ∧
    (initialize_grid (grid_new "grid" "BTC") 100).grid_levels[10 + ((2 : ℕ) - 1)]? =
      some (100 * (1 + (grid_new "grid" "BTC").grid_spacing * ((2 : ℕ) : ℚ) / 100)) ∧
    alistLookup (100 * (1 - (grid_new "grid" "BTC").grid_spacing * ((2 : ℕ) : ℚ) / 100))
      (initialize_grid (grid_new "grid" "BTC") 100).active_orders = some true ∧
    alistLookup (100 * (1 + (grid_new "grid" "BTC").grid_spacing * ((2 : ℕ) : ℚ) / 100))
      (initialize_grid (grid_new "grid" "BTC") 100).active_orders = some false :=
  grid_initialize_levels (grid_new "grid" "BTC") 100 10 2
    (by norm_num) (of_decide_eq_true (by with_unfolding_all rfl))
    (of_decide_eq_true (by with_unfolding_all rfl)) (by norm_num) rfl
    (by norm_num) (by norm_num)

/-! ### Grid analysis ordering (C4) -/

theorem find_first_eq_of_max {p : ℚ → Bool} {l : List ℚ} {L : ℚ}
    (hord : l.Pairwise (fun a c => p a = true → p c = true → c < a))
    (hmem : L ∈ l) (hL : p L = true)
    (hmax : ∀ x ∈ l, p x = true → x ≤ L) :
    l.find? p = some L := by
  induction l with
  | nil => cases hmem
  | cons a t ih =>
    rcases List.pairwise_cons.mp hord with ⟨ha, ht⟩
    by_cases hpa : p a = true
    · have haL : a = L := by
        rcases List.mem_cons.mp hmem with h | h
        · exact h.symm
        · have h1 := ha L h hpa hL
          have h2 := hmax a (List.mem_cons_self _ _) hpa
          linarith
      rw [List.find?_cons_of_pos t hpa, haL]
    · have hLt : L ∈ t := by
        rcases List.mem_cons.mp hmem with h | h
        · subst h
          exact absurd hL hpa
        · exact h
      rw [List.find?_cons_of_neg t hpa]
      exact ih ht hLt (fun x hx hpx => hmax x (List.mem_cons_of_mem _ hx) hpx)

theorem find_first_eq_of_min {p : ℚ → Bool} {l : List ℚ} {L : ℚ}
    (hord : l.Pairwise (fun a c => p a = true → p c = true → a < c))
    (hmem : L ∈ l) (hL : p L = true)
    (hmin : ∀ x ∈ l, p x = true → L ≤ x) :
    l.find? p = some L := by
  induction l with
  | nil => cases hmem
  | cons a t ih =>
    rcases List.pairwise_cons.mp hord with ⟨ha, ht⟩
    by_cases hpa : p a = true
    · have haL : a = L := by
        rcases List.mem_cons.mp hmem with h | h
        · exact h.symm
        · have h1 := ha L h hpa hL
          have h2 := hmin a (List.mem_cons_self _ _) hpa
          linarith
      rw [List.find?_cons_of_pos t hpa, haL]
    · have hLt : L ∈ t := by
        rcases List.mem_cons.mp hmem with h | h
        · subst h
          exact absurd hL hpa
        · exact h
      rw [List.find?_cons_of_neg t hpa]
      exact ih ht hLt (fun x hx hpx => hmin x (List.mem_cons_of_mem _ hx) hpx)

/-- C4 (counterexample): on a fresh default grid initialized at base 100
(buy levels 99, 98, …, 90; sell levels 101, …, 110, all untriggered), at
price 97.5 `analyze` proposes the buy level 99 although 98 is an
untriggered buy level above the price that is strictly nearer (the claim
demands the smallest such level, 98); and at price 103.5 it proposes the
sell level 101 although 103 is an untriggered sell level below the price
that is strictly nearer (the claim demands the largest such level, 103). -/
theorem c4_nearest_level_counterexample :
    (grid_analyze gridEx mdBuyEx).map StrategySignal.price = some (some 99) ∧
    (98 : ℚ) ∈ gridEx.grid_levels ∧
    alistLookup 98 gridEx.active_orders = some true ∧
    mdBuyEx.price < 98 ∧ (98 : ℚ) < 99 ∧
    (grid_analyze gridEx mdSellEx).map StrategySignal.price = some (some 101) ∧
    (103 : ℚ) ∈ gridEx.grid_levels ∧
    alistLookup 103 gridEx.active_orders = some false ∧
    (103 : ℚ) < mdSellEx.price ∧ (101 : ℚ) < 103 :=
  of_decide_eq_true (by with_unfolding_all rfl)

/-- C4 (amended): for an enabled, initialized grid whose buy-tagged levels
appear in strictly decreasing order and whose sell-tagged levels appear in
strictly increasing order in `grid_levels` (as `initialize_grid` lays them
out), `analyze` proposes the FARTHEST untriggered buy level above the
current price — the largest one — whenever one exists and the investment
cap is not reached; otherwise (no buy candidate, or cap reached) it
proposes the FARTHEST untriggered sell level below the current price — the
smallest one — when one exists. -/
theorem grid_analyze_first_level_in_order (st : GridState) (md : MarketData) (b : ℚ)
    (hen : st.enabled = true) (hbp : st.base_price = some b)
    (hbuyOrd : st.grid_levels.Pairwise (fun x y =>
      alistLookup x st.active_orders = some true →
      alistLookup y st.active_orders = some true → y < x))
    (hsellOrd : st.grid_levels.Pairwise (fun x y =>
      alistLookup x st.active_orders = some false →
      alistLookup y st.active_orders = some false → x < y)) :
    (∀ L, st.total_investment < st.max_investment → L ∈ st.grid_levels →
      alistLookup L st.active_orders = some true → md.price < L →
      (∀ x ∈ st.grid_levels, alistLookup x st.active_orders = some true →
        md.price < x → x ≤ L) →
      grid_analyze st md = some (mk_grid_signal st .Buy L)) ∧
    (∀ L, (st.max_investment ≤ st.total_investment ∨
        ∀ x ∈ st.grid_levels, alistLookup x st.active_orders = some true →
          x ≤ md.price) →
      L ∈ st.grid_levels → alistLookup L st.active_orders = some false →
      L < md.price →
      (∀ x ∈ st.grid_levels, alistLookup x st.active_orders = some false →
        x < md.price → L ≤ x) →
      grid_analyze st md = some (mk_grid_signal st .Sell L)) := by
  constructor
  · intro L hcap hmem htag hgt hmax
    have hbuy : should_place_buy_order st md = some L := by
      unfold should_place_buy_order
      rw [if_neg (not_le.mpr hcap)]
      refine find_first_eq_of_max ?_ hmem ?_ ?_
      · refine hbuyOrd.imp ?_
        intro a c hac hpa hpc
        simp only [Bool.and_eq_true, decide_eq_true_eq] at hpa hpc
        exact hac hpa.2 hpc.2
      · simp only [Bool.and_eq_true, decide_eq_true_eq]
        exact ⟨hgt, htag⟩
      · intro x hx hpx
        simp only [Bool.and_eq_true, decide_eq_true_eq] at hpx
        exact hmax x hx hpx.2 hpx.1
    unfold grid_analyze
    rw [hen, hbp, hbuy]
    simp
  · intro L hnobuy hmem htag hlt hmin
    have hbuynone : should_place_buy_order st md = none := by
      unfold should_place_buy_order
      by_cases hcap : st.max_investment ≤ st.total_investment
      · rw [if_pos hcap]
      · rcases hnobuy with hc | hnone
        · exact absurd hc hcap
        · rw [if_neg hcap]
          refine List.find?_eq_none.mpr ?_
          intro x hx
          simp only [Bool.and_eq_true, decide_eq_true_eq, not_and]
          intro hpx htx
          exact absurd (hnone x hx htx) (not_le.mpr hpx)
    have hsell : should_place_sell_order st md = some L := by
      unfold should_place_sell_order
      refine find_first_eq_of_min ?_ hmem ?_ ?_
      · refine hsellOrd.imp ?_
        intro a c hac hpa hpc
        simp only [Bool.and_eq_true, decide_eq_true_eq] at hpa hpc
        exact hac hpa.2 hpc.2
      · simp only [Bool.and_eq_true, decide_eq_true_eq]
        exact ⟨hlt, htag⟩
      · intro x hx hpx
        simp only [Bool.and_eq_true, decide_eq_true_eq] at hpx
        exact hmin x hx hpx.2 hpx.1
    unfold grid_analyze
    rw [hen, hbp, hbuynone, hsell]
    simp

/-- C4 witness: the amended theorem evaluated on the fresh default grid at
base 100: at price 97.5 the proposal is the largest untriggered buy level
above the price (99), and at price 103.5 — where no buy level is above the
price — it is the smallest untriggered sell level below the price (101). -/
theorem grid_analyze_first_level_in_order_witness :
    grid_analyze gridEx mdBuyEx = some (mk_grid_signal gridEx .Buy 99) ∧
    grid_analyze gridEx mdSellEx = some (mk_grid_signal gridEx .Sell 101) :=
  ⟨(grid_analyze_first_level_in_order gridEx mdBuyEx 100 rfl
      (of_decide_eq_true (by with_unfolding_all rfl))
      (of_decide_eq_true (by with_unfolding_all rfl))
      (of_decide_eq_true (by with_unfolding_all rfl))).1 99
      (of_decide_eq_true (by with_unfolding_all rfl))
      (of_decide_eq_true (by with_unfolding_all rfl))
      (of_decide_eq_true (by with_unfolding_all rfl))
      (of_decide_eq_true (by with_unfolding_all rfl))
      (of_decide_eq_true (by with_unfolding_all rfl)),
    (grid_analyze_first_level_in_order gridEx mdSellEx 100 rfl
      (of_decide_eq_true (by with_unfolding_all rfl))
      (of_decide_eq_true (by with_unfolding_all rfl))
      (of_decide_eq_true (by with_unfolding_all rfl))).2 101
      (Or.inr (of_decide_eq_true (by with_unfolding_all rfl)))
      (of_decide_eq_true (by with_unfolding_all rfl))
      (of_decide_eq_true (by with_unfolding_all rfl))
      (of_decide_eq_true (by with_unfolding_all rfl))
      (of_decide_eq_true (by with_unfolding_all rfl))⟩

/-! ### RSI bounds (C8) -/

theorem priceChanges_length (prices : List ℚ) :
    (priceChanges prices).length = prices.length - 1 := by
  cases prices with
  | nil => rfl
  | cons p t =>
    simp only [priceChanges, List.length_zipWith, List.length_cons]
    omega

theorem rsiGains_nonneg (prices : List ℚ) : ∀ x ∈ rsiGains prices, 0 ≤ x := by
  intro x hx
  rcases List.mem_map.mp hx with ⟨c, hc, rfl⟩
  split_ifs with h
  · linarith
  · exact le_refl 0

theorem rsiLosses_nonneg (prices : List ℚ) : ∀ x ∈ rsiLosses prices, 0 ≤ x := by
  intro x hx
  rcases List.mem_map.mp hx with ⟨c, hc, rfl⟩
  split_ifs with h
  · exact le_refl 0
  · linarith [not_lt.mp h]

theorem rsiAvgGain_nonneg (prices : List ℚ) (period : ℕ) :
    0 ≤ rsiAvgGain prices period := by
  refine div_nonneg (List.sum_nonneg ?_) (by positivity)
  intro x hx
  exact rsiGains_nonneg prices x
    (List.mem_reverse.mp (List.take_subset _ _ hx))

theorem rsiAvgLoss_nonneg (prices : List ℚ) (period : ℕ) :
    0 ≤ rsiAvgLoss prices period := by
  refine div_nonneg (List.sum_nonneg ?_) (by positivity)
  intro x hx
  exact rsiLosses_nonneg prices x
    (List.mem_reverse.mp (List.take_subset _ _ hx))

theorem rsiAvgLoss_eq_zero_of_all_gains (prices : List ℚ) (period : ℕ)
    (hall : ((priceChanges prices).reverse.take period).all
      (fun c => decide (0 < c)) = true) :
    rsiAvgLoss prices period = 0 := by
  unfold rsiAvgLoss
  have hmap : ((rsiLosses prices).reverse.take period)
      = ((priceChanges prices).reverse.take period).map
        (fun c => if 0 < c then (0 : ℚ) else -c) := by
    unfold rsiLosses
    rw [← List.map_reverse, ← List.map_take]
  have hz : ((rsiLosses prices).reverse.take period).sum = 0 := by
    rw [hmap]
    refine List.sum_eq_zero ?_
    intro x hx
    rcases List.mem_map.mp hx with ⟨c, hc, rfl⟩
    have hcpos : 0 < c := of_decide_eq_true (List.all_eq_true.mp hall c hc)
    simp [hcpos]
  rw [hz, zero_div]

/-- C8: with `period ≥ 1` and at least `period+1` prices, RSI produces a
value in `[0, 100]`; and when every per-step change in the trailing window
of length `period` is a gain (so the average loss is exactly zero), it is
exactly 100. -/
theorem rsi_within_bounds (prices : List ℚ) (period : ℕ)
    (hp : 1 ≤ period) (hl : period + 1 ≤ prices.length) :
    (calculate_rsi prices period).isSome = true ∧
    0 ≤ (calculate_rsi prices period).getD 0 ∧
    (calculate_rsi prices period).getD 0 ≤ 100 ∧
    (((priceChanges prices).reverse.take period).all (fun c => decide (0 < c)) = true →
      calculate_rsi prices period = some 100) := by
  have hg1 : ¬ prices.length < period + 1 := not_lt.mpr hl
  have hg2 : ¬ (rsiGains prices).length < period := by
    have : (rsiGains prices).length = (priceChanges prices).length := by
      simp [rsiGains]
    rw [this, priceChanges_length]
    omega
  unfold calculate_rsi
  rw [if_neg hg1, if_neg hg2]
  by_cases hz : rsiAvgLoss prices period = 0
  · rw [if_pos hz]
    exact ⟨rfl, by norm_num, by norm_num, fun _ => rfl⟩
  · rw [if_neg hz]
    have hpos : 0 < rsiAvgLoss prices period :=
      lt_of_le_of_ne (rsiAvgLoss_nonneg prices period) (Ne.symm hz)
    have hrs : 0 ≤ rsiAvgGain prices period / rsiAvgLoss prices period :=
      div_nonneg (rsiAvgGain_nonneg prices period) (le_of_lt hpos)
    have hdpos : 0 < 1 + rsiAvgGain prices period / rsiAvgLoss prices period := by
      linarith
    have hq1 : 100 / (1 + rsiAvgGain prices period / rsiAvgLoss prices period) ≤ 100 := by
      rw [div_le_iff hdpos]
      nlinarith
    have hq2 : 0 < 100 / (1 + rsiAvgGain prices period / rsiAvgLoss prices period) :=
      div_pos (by norm_num) hdpos
    refine ⟨rfl, ?_, ?_, ?_⟩
    · simp only [Option.getD_some]
      linarith
    · simp only [Option.getD_some]
      linarith
    · intro hallg
      exact absurd (rsiAvgLoss_eq_zero_of_all_gains prices period hallg) hz

/-- C8 witness: the RSI bound theorem evaluated on `[1, 2, 3]` with
period 1 (an all-gains window, so the implication's premise also fires). -/
theorem rsi_within_bounds_witness :
    (calculate_rsi [1, 2, 3] 1).isSome = true ∧
    0 ≤ (calculate_rsi [1, 2, 3] 1).getD 0 ∧
    (calculate_rsi [1, 2, 3] 1).getD 0 ≤ 100 ∧
    (((priceChanges [1, 2, 3]).reverse.take 1).all (fun c => decide (0 < c)) = true →
      calculate_rsi [1, 2, 3] 1 = some 100) :=
  rsi_within_bounds [1, 2, 3] 1 (by norm_num) (by norm_num)

/-! ### Momentum strategy under default parameters (C9) -/

theorem calculate_macd_components {prices : List ℚ} {f s sp : ℕ} {m sl h : ℚ}
    (hmacd : calculate_macd prices f s sp = some (m, sl, h)) :
    sl = m ∧ h = 0 := by
  unfold calculate_macd at hmacd
  by_cases hlen : prices.length < s
  · rw [if_pos hlen] at hmacd
    cases hmacd
  · rw [if_neg hlen] at hmacd
    rcases he1 : calculate_ema prices f none with - | fe
    · rw [he1] at hmacd
      rcases he2 : calculate_ema prices s none with - | se <;> rw [he2] at hmacd <;>
        cases hmacd
    · rw [he1] at hmacd
      rcases he2 : calculate_ema prices s none with - | se
      · rw [he2] at hmacd
        cases hmacd
      · rw [he2] at hmacd
        simp only [Option.some.injEq, Prod.mk.injEq] at hmacd
        obtain ⟨h1, h2, h3⟩ := hmacd
        constructor
        · rw [← h1, ← h2]
        · rw [← h3]
          ring

theorem momentumConfidence_le_half (st : MomentumState) (m rsi fast_sma slow_sma : ℚ)
    (hb : st.rsi_oversold ≤ st.rsi_overbought) :
    momentumConfidence st m m 0 rsi fast_sma slow_sma ≤ 1/2 := by
  unfold momentumConfidence
  have hnb : ¬ macdBullishCond m m 0 := fun hc => lt_irrefl m hc.1
  have hnr : ¬ macdBearishCond m m 0 := fun hc => lt_irrefl m hc.1
  rw [if_neg hnb, if_neg hnr]
  split_ifs <;> try norm_num
  all_goals linarith

theorem analyze_momentum_none_of_low_min (st : MomentumState)
    (hb : st.rsi_oversold ≤ st.rsi_overbought) (hm : 1/2 < st.min_confidence) :
    analyze_momentum st = none := by
  unfold analyze_momentum
  by_cases hlen : st.price_history.length < st.slow_period
  · rw [if_pos hlen]
  · rw [if_neg hlen]
    rcases hmacd : calculate_macd st.price_history st.fast_period st.slow_period
        st.signal_period with - | ⟨m, sl, h⟩
    · simp only [hmacd]
    · obtain ⟨hsl, hh⟩ := calculate_macd_components hmacd
      simp only [hmacd]
      rw [hsl, hh]
      rcases hrsi : calculate_rsi st.price_history st.rsi_period with - | rsi
      · simp only [hrsi]
      · simp only [hrsi]
        rcases hf : calculate_sma st.price_history st.fast_period with - | fast_sma
        · simp only [hf]
        · simp only [hf]
          rcases hs2 : calculate_sma st.price_history st.slow_period with - | slow_sma
          · simp only [hs2]
          · simp only [hs2]
            rw [if_neg (not_le.mpr
              (lt_of_le_of_lt (momentumConfidence_le_half st m rsi fast_sma slow_sma hb) hm))]

/-- C9: with the defaults of `MomentumStrategy::new` (MACD 12/26, RSI
bounds 30/70, minimum confidence 0.6), `analyze` yields no proposal for
any accumulated price/volume history and any quote: the degenerate MACD
makes both crossover conditions (0.3 each) unreachable, and the remaining
conditions — RSI (mutually exclusive bounds, 0.2), the moving-average
ordering (0.2) and the volume surge (0.1) — sum to at most 0.5 < 0.6. -/
theorem momentum_default_never_signals (name symbol : String) (ph vh : List ℚ)
    (md : MarketData) :
    momentum_analyze
      { momentum_new name symbol with price_history := ph, volume_history := vh } md
      = none := by
  unfold momentum_analyze
  rw [if_neg (by simp [momentum_new] :
    ¬ ({ momentum_new name symbol with
          price_history := ph, volume_history := vh } : MomentumState).enabled = false)]
  have hnone : analyze_momentum
      (momentum_update_history
        { momentum_new name symbol with
            price_history := ph, volume_history := vh } md) = none := by
    refine analyze_momentum_none_of_low_min _ ?_ ?_
    · simp [momentum_update_history, momentum_new]
      norm_num
    · simp [momentum_update_history, momentum_new]
      norm_num
  simp only [hnone]

end HyperliquidBot
